import Mathlib

/-!
Shallow embedding of the spreadsheet-backed row store from
`packages/wholly-sheet/src/SheetSDK.ts` and
`packages/wholly-sheet/src/WhollySheet.ts`.

JavaScript cell/field values are modelled by the inductive type `FieldVal`.
JS numbers are modelled as rationals (every finite double is rational; NaN and
the infinities are outside the model).  Dates are modelled by their millisecond
timestamp.  Host primitives that the source calls but that are not part of the
repository (`Number.prototype.toString`, `parseInt`, `parseFloat`,
`Date.prototype.toISOString`, `new Date(string)`) are parameters, bundled in
`JsHost`; a concrete instance `refHost` is used to evaluate concrete scenarios.
-/

deriving instance DecidableEq for Except

namespace WS

/-- A JavaScript value as it occurs in a row field or a sheet cell. -/
inductive FieldVal where
  | vUndefined : FieldVal
  | vNull : FieldVal
  | vStr (s : String) : FieldVal
  | vNum (q : ℚ) : FieldVal
  | vBool (b : Bool) : FieldVal
  | vDate (ms : Int) : FieldVal
deriving DecidableEq, Repr

/-- JavaScript truthiness of a `FieldVal` (`undefined`, `null`, `""`, `0` and
`false` are falsy; every `Date` object is truthy). -/
def truthy : FieldVal → Bool
  | .vUndefined => false
  | .vNull => false
  | .vStr s => s ≠ ""
  | .vNum q => q ≠ 0
  | .vBool b => b
  | .vDate _ => true

/-- Host (JavaScript runtime) primitives used by the codec; they are external
to the repository, so the development is parameterized over them. -/
structure JsHost where
  /-- `Number.prototype.toString` -/
  numToString : ℚ → String
  /-- `parseInt(s, 10)` -/
  parseInt10 : String → ℚ
  /-- `parseFloat(s)` -/
  parseFloat : String → ℚ
  /-- `Date.prototype.toISOString` -/
  dateToISO : Int → String
  /-- `Date.prototype.toString` (used only for string coercion of dates) -/
  dateToString : Int → String
  /-- `new Date(s)`, the timestamp of the parsed date -/
  parseDate : String → Int

/-- JS `String(v)` coercion, used for template literals and property keys. -/
def jsToString (h : JsHost) : FieldVal → String
  | .vUndefined => "undefined"
  | .vNull => "null"
  | .vStr s => s
  | .vNum q => h.numToString q
  | .vBool b => if b then "true" else "false"
  | .vDate t => h.dateToString t

/-- `export const NIL = '\0'` — the sentinel written for an empty cell. -/
def NIL : String := "\x00"

/-- Timestamp of `export const noDate = new Date(-8640000000000000)`. -/
def noDateMs : Int := -8640000000000000

/-- `stringer` from SheetSDK.ts: convert a value to the string representation
for a cell.  `undefined`/`null` ↦ NIL; `noDate` ↦ NIL; other dates ↦ ISO text;
anything else ↦ its `toString` form.  (The source compares `value === noDate`
by reference; the model compares timestamps.) -/
def stringer (h : JsHost) : FieldVal → String
  | .vUndefined => NIL
  | .vNull => NIL
  | .vDate t => if t = noDateMs then NIL else h.dateToISO t
  | .vStr s => s
  | .vNum q => h.numToString q
  | .vBool b => if b then "true" else "false"

/-- The regex `^([+-]?[1-9]\d*|0)$` applied to the non-sign part. -/
def isIntCore (l : List Char) : Bool :=
  match l with
  | [] => false
  | c :: cs => ('1' ≤ c && c ≤ '9') && cs.all Char.isDigit

/-- The `isInt` test in `RowModel.typeCast`: does the string match
`^([+-]?[1-9]\d*|0)$`? -/
def isIntStr (s : String) : Bool :=
  match s.data with
  | [] => false
  | ['0'] => true
  | c :: cs => if c = '+' || c = '-' then isIntCore cs else isIntCore (c :: cs)

/-- ASCII lower-casing of one character (structural, kernel-reducible). -/
def lowerChar (c : Char) : Char :=
  if 'A' ≤ c && c ≤ 'Z' then Char.ofNat (c.toNat + 32) else c

/-- Modelled from the spec: `boolDefault` comes from the external runtime
library `@looker/sdk-rtl` (not under src/); the spec describes it as a
"permissive true/false parser defaulting to false on ambiguity". -/
def boolDefault (value : String) (dflt : Bool) : Bool :=
  let l := value.data.map lowerChar
  if l = "true".data ∨ l = "t".data ∨ l = "yes".data ∨ l = "y".data
      ∨ l = "1".data then true
  else if l = "false".data ∨ l = "f".data ∨ l = "no".data ∨ l = "n".data
      ∨ l = "0".data then false
  else dflt

/-- A row record: a JS object modelled as its property name/value pairs in
declaration order.  The first property is always `row` (set first by the
`RowModel` constructor / by `loadTabTable`). -/
structure RowRec where
  fields : List (String × FieldVal)
deriving DecidableEq, Repr, Inhabited

/-- `Object.keys(this)` — property names in declaration order. -/
def RowRec.keys (r : RowRec) : List String := r.fields.map Prod.fst

/-- `header()` from RowModel: `keys().slice(1)` (drops the leading `row`). -/
def RowRec.header (r : RowRec) : List String := r.keys.drop 1

/-- `this[key]` — an absent property reads as `undefined`. -/
def RowRec.get (r : RowRec) (key : String) : FieldVal :=
  (r.fields.lookup key).getD .vUndefined

/-- `this[key] = v` — assignment to an existing property keeps its position;
assignment to a new property appends it. -/
def RowRec.set (r : RowRec) (key : String) (v : FieldVal) : RowRec :=
  if r.fields.any (fun p => p.1 = key) then
    ⟨r.fields.map (fun p => if p.1 = key then (key, v) else p)⟩
  else ⟨r.fields ++ [(key, v)]⟩

/-- `RowModel.typeCast(key, value)` from SheetSDK.ts: coerce a raw cell value
to the type of the value currently held in field `key`.  All call sites in the
repository pass cell text, so the raw value is modelled as a `String`
(JS falsiness of the raw value is then `value = ""`; note `NIL` is truthy).
`RowModel` does not override `toString`, so `this.toString()` is the default
`Object` rendering. -/
def typeCast (h : JsHost) (r : RowRec) (key : String) (value : String) : FieldVal :=
  if value = "" then .vUndefined
  else
    match r.get key with
    | .vStr _ => .vStr value
    | .vNum _ =>
        if isIntStr value then .vNum (h.parseInt10 value) else .vNum (h.parseFloat value)
    | .vBool _ => .vBool (boolDefault value false)
    | .vDate _ => .vDate (h.parseDate value)
    | _ => .vStr "[object Object]"

/-- The body a remote call answers with, as consumed by `assign`:
either a positional array of cell texts or a named mapping. -/
inductive AssignSrc where
  | arr (vals : List String) : AssignSrc
  | obj (entries : List (String × String)) : AssignSrc
deriving DecidableEq, Repr

/-- Positional branch of `RowModel.assign`: `keys` is captured once from
`header()`; each value is typeCast against the record state built so far; an
index beyond the header writes property `"undefined"` (JS `this[undefined]`). -/
def assignArr (h : JsHost) (r : RowRec) (vals : List String) : RowRec :=
  let keys := r.header
  (vals.foldl
    (fun (acc : RowRec × Nat) val =>
      let key := (keys.get? acc.2).getD "undefined"
      (acc.1.set key (typeCast h acc.1 key val), acc.2 + 1))
    (r, 0)).1

/-- Named branch of `RowModel.assign`: only keys already present
(`key in this`) are assigned. -/
def assignObj (h : JsHost) (r : RowRec) (entries : List (String × String)) : RowRec :=
  entries.foldl
    (fun acc kv =>
      if acc.keys.contains kv.1 then acc.set kv.1 (typeCast h acc kv.1 kv.2) else acc)
    r

/-- `RowModel.assign(values)` from SheetSDK.ts. -/
def RowRec.assign (h : JsHost) (r : RowRec) : AssignSrc → RowRec
  | .arr vals => assignArr h r vals
  | .obj entries => assignObj h r entries

/-- The decimal digit character for `d < 10` (structural). -/
def digitChar10 (d : Nat) : Char := Char.ofNat (48 + d)

/-- Decimal digits of a natural number, most significant first; `fuel`
bounds the recursion so the definition is structural and kernel-reducible. -/
def natDigitsAux : Nat → Nat → List Char
  | 0, _ => []
  | fuel + 1, n =>
      if n < 10 then [digitChar10 n]
      else natDigitsAux fuel (n / 10) ++ [digitChar10 (n % 10)]

/-- Decimal rendering of a natural number (structural). -/
def natToStr (n : Nat) : String := ⟨natDigitsAux (n + 1) n⟩

/-- Decimal rendering of an integer (structural). -/
def intToStr : Int → String
  | .ofNat n => natToStr n
  | .negSucc n => "-" ++ natToStr (n + 1)

/-- The value of a decimal digit character, if it is one. -/
def charDigit (c : Char) : Option Nat :=
  if '0' ≤ c && c ≤ '9' then some (c.toNat - 48) else none

/-- Parse a non-empty run of decimal digits (structural). -/
def strToNatCore : List Char → Nat → Option Nat
  | [], acc => some acc
  | c :: cs, acc =>
      match charDigit c with
      | some d => strToNatCore cs (acc * 10 + d)
      | none => none

/-- Parse an optionally negated decimal integer (structural). -/
def strToInt (s : String) : Option Int :=
  match s.data with
  | [] => none
  | '-' :: cs =>
      match cs with
      | [] => none
      | _ => (strToNatCore cs 0).map (fun n => -(n : Int))
  | cs => (strToNatCore cs 0).map (fun n => (n : Int))

/-- A concrete `JsHost` instance used to evaluate concrete scenarios and
witnesses.  Its primitives are simple executable stand-ins (theorems that
depend on host behaviour are parameterized over the host, not over this
instance). -/
def refHost : JsHost where
  numToString q := if q.den = 1 then intToStr q.num
    else intToStr q.num ++ "/" ++ natToStr q.den
  parseInt10 s := ((strToInt s).getD 0 : Int)
  parseFloat s := ((strToInt s).getD 0 : Int)
  dateToISO t := "@" ++ intToStr t
  dateToString t := "@" ++ intToStr t
  parseDate s := (strToInt ⟨s.data.drop 1⟩).getD 0

/-- JS strict equality `===` restricted to the values of the model.  Two
`Date` objects are compared by reference in JS, so two independently obtained
dates are never strictly equal; the model renders date/date comparison as
`false`. -/
def jsStrictEq : FieldVal → FieldVal → Bool
  | .vUndefined, .vUndefined => true
  | .vNull, .vNull => true
  | .vStr a, .vStr b => a = b
  | .vNum a, .vNum b => a = b
  | .vBool a, .vBool b => a = b
  | _, _ => false

/-- Assignment `m[k] = v` on a plain JS object modelled as an ordered
association list: overwrite in place, or append a new key. -/
def objSet (m : List (String × RowRec)) (k : String) (v : RowRec) :
    List (String × RowRec) :=
  if m.any (fun p => p.1 = k) then
    m.map (fun p => if p.1 = k then (k, v) else p)
  else m ++ [(k, v)]

/-- `WhollySheet.createIndex`: `this.index = {}` then
`rows.forEach(r => this.index[r[keyColumn]] = r)` (the property key is the JS
string coercion of the key field). -/
def createIndex (h : JsHost) (keyColumn : String) (rows : List RowRec) :
    List (String × RowRec) :=
  rows.foldl (fun m r => objSet m (jsToString h (r.get keyColumn)) r) []

/-- In-memory state of a `WhollySheet` instance. -/
structure Store where
  name : String
  header : List String
  keyColumn : String
  rows : List RowRec
  index : List (String × RowRec)
deriving DecidableEq, Repr

/-- `WhollySheet.values(model)`: the row's cell texts in `table.header`
column order. -/
def wsValues (h : JsHost) (ws : Store) (r : RowRec) : List String :=
  ws.header.map (fun c => stringer h (r.get c))

/-- Arguments of a `SheetSDK.createRow` (append) call. -/
structure CreateCall where
  name : String
  row : Nat
  values : List String
deriving DecidableEq, Repr

/-- Arguments of a `SheetSDK.updateRow` call.  The row argument is
`model.row`, which JS does not constrain to be a number. -/
structure UpdateCall where
  name : String
  row : FieldVal
  values : List String
deriving DecidableEq, Repr

/-- Message of `WhollySheet.checkId`'s error:
`"${this.keyColumn}" must be assigned for row ${model.row}`. -/
def checkIdMsg (h : JsHost) (ws : Store) (model : RowRec) : String :=
  "\"" ++ ws.keyColumn ++ "\" must be assigned for row " ++
    jsToString h (model.get "row")

/-- Message of `create`'s row-precondition error. -/
def createRowMsg (h : JsHost) (model : RowRec) : String :=
  "\"" ++ jsToString h (model.get "id") ++ "\" row must be 0, not " ++
    jsToString h (model.get "row") ++ " to create"

/-- Message of `update`'s row-precondition error. -/
def updateRowMsg (h : JsHost) (model : RowRec) : String :=
  "\"" ++ jsToString h (model.get "id") ++ "\" row must be > 0 to update"

/-- The host error raised by `this.rows[model.row].assign(...)` when
`this.rows[model.row]` is `undefined`. -/
def typeErrMsg : String :=
  "TypeError: Cannot read properties of undefined (reading \x27assign\x27)"

/-- `WhollySheet.create(model)`.  The remote boundary (`sheets.createRow`,
i.e. transport plus the append-confirmation check inside it) is the `remote`
oracle; an oracle error models a failed append.  Returns the (possibly
mutated) store, the list of remote calls issued, and the result.  Note the
source never pushes the created record onto `this.rows` (the push at
WhollySheet.ts:163 is commented out): only the index is rebuilt, over the
unchanged row list. -/
def createS (h : JsHost) (ws : Store) (model : RowRec)
    (remote : CreateCall → Except String AssignSrc) :
    Store × List CreateCall × Except String RowRec :=
  if truthy (model.get ws.keyColumn) = false then
    (ws, [], .error (checkIdMsg h ws model))
  else if model.get "row" ≠ .vNum 0 then
    (ws, [], .error (createRowMsg h model))
  else
    let vals := wsValues h ws model
    let call : CreateCall := ⟨ws.name, ws.rows.length, vals⟩
    match remote call with
    | .error e => (ws, [call], .error e)
    | .ok src =>
        let model' := model.assign h src
        ({ ws with index := createIndex h ws.keyColumn ws.rows }, [call], .ok model')

/-- JS array indexing `rows[v]`: only a canonical non-negative in-range
integer key hits an element; anything else reads `undefined`. -/
def jsIndexNat (len : Nat) (v : FieldVal) : Option Nat :=
  match v with
  | .vNum q =>
      if q.den = 1 ∧ 0 ≤ q.num ∧ q.num < (len : Int) then some q.num.toNat else none
  | _ => none

/-- `WhollySheet.update(model)`.  After a successful remote update, the source
does `this.rows[model.row].assign(result)` — the remote row number is used
directly as an index into the in-memory array; when that reads `undefined`
the `.assign` call raises a TypeError. -/
def updateS (h : JsHost) (ws : Store) (model : RowRec)
    (remote : UpdateCall → Except String AssignSrc) :
    Store × List UpdateCall × Except String RowRec :=
  if truthy (model.get ws.keyColumn) = false then
    (ws, [], .error (checkIdMsg h ws model))
  else if truthy (model.get "row") = false then
    (ws, [], .error (updateRowMsg h model))
  else
    let vals := wsValues h ws model
    let call : UpdateCall := ⟨ws.name, model.get "row", vals⟩
    match remote call with
    | .error e => (ws, [call], .error e)
    | .ok src =>
        match jsIndexNat ws.rows.length (model.get "row") with
        | none => (ws, [call], .error typeErrMsg)
        | some n =>
            let target := (ws.rows.getD n ⟨[]⟩).assign h src
            let rows' := ws.rows.set n target
            ({ ws with rows := rows', index := createIndex h ws.keyColumn rows' },
              [call], .ok target)

/-- `toAT` from WhollySheet.ts applied to an index/scan result: a record
object is always truthy, `undefined` is falsy. -/
def toAT (v : Option RowRec) : Option RowRec :=
  match v with
  | some r => some r
  | none => none

/-- `WhollySheet.find(value, columnName?)`.  `columnName || this.keyColumn`
uses JS truthiness (an empty-string column name falls back to the key
column); a numeric value with no column name defaults the scan column to
`row`; only `columnName === this.keyColumn` takes the index path. -/
def findW (h : JsHost) (ws : Store) (value : FieldVal)
    (columnName : Option String) : Option RowRec :=
  if truthy value = false then none
  else
    let key0 := match columnName with
      | some c => if c = "" then ws.keyColumn else c
      | none => ws.keyColumn
    let isNum := match value with | .vNum _ => true | _ => false
    let colFalsy := match columnName with
      | some c => c = ""
      | none => true
    let key := if isNum && colFalsy then "row" else key0
    if columnName = some ws.keyColumn then
      toAT (ws.index.lookup (jsToString h value))
    else
      toAT (ws.rows.find? (fun r => jsStrictEq (r.get key) value))

/-- One cell of a raw grid; only `formattedValue` is consumed.  An absent or
empty formatted value (both falsy in JS) is modelled as `""`. -/
structure CellData where
  formattedValue : String
deriving DecidableEq, Repr, Inhabited

/-- One raw grid row (`ITabRowData`). -/
structure TabRowData where
  values : List CellData
deriving DecidableEq, Repr, Inhabited

/-- A sheet tab: its title plus `tab.data[0].rowData`. -/
structure SheetTab where
  title : String
  rowData : List TabRowData
deriving DecidableEq, Repr

/-- `ITabTable`: the parsed header and data rows of one tab. -/
structure Table where
  header : List String
  rows : List RowRec
deriving DecidableEq, Repr

/-- Header extraction in `loadTabTable`: scan the first grid row's cells left
to right, stopping at the first cell with no formatted value. -/
def takeHeader : List CellData → List String
  | [] => []
  | c :: cs => if c.formattedValue = "" then [] else c.formattedValue :: takeHeader cs

/-- Construction of one data-row record in `loadTabTable`: set
`row = rowIndex + 1` first, then for each header column in order assign the
corresponding cell's formatted value when the cell exists and its value is
truthy. -/
def buildRow (header : List String) (cells : List CellData) (rowIndex : Nat) :
    RowRec :=
  (header.foldl
    (fun (acc : RowRec × Nat) colName =>
      match cells.get? acc.2 with
      | some cell =>
          if cell.formattedValue = "" then (acc.1, acc.2 + 1)
          else (acc.1.set colName (.vStr cell.formattedValue), acc.2 + 1)
      | none => (acc.1, acc.2 + 1))
    (⟨[("row", .vNum ((rowIndex + 1 : Nat) : ℚ))]⟩, 0)).1

/-- The structural error raised for a non-blank row with no key value:
`Tab ${tabName(tab)} row ${rowIndex + 1} has no key column '${keyName}'`. -/
def noKeyMsg (tabTitle : String) (rowNum : Nat) (keyName : String) : String :=
  "Tab " ++ tabTitle ++ " row " ++ toString rowNum ++ " has no key column \x27"
    ++ keyName ++ "\x27"

/-- The data-row loop of `loadTabTable`, starting at `rowData` index 1: a row
whose only populated property is `row` ends the data; a non-blank row with a
falsy key value raises the structural error; otherwise the row is collected. -/
def loadRows (tabTitle keyName : String) (header : List String) :
    List TabRowData → Nat → Except String (List RowRec)
  | [], _ => .ok []
  | r :: rest, rowIndex =>
      let row := buildRow header r.values rowIndex
      if row.fields.length = 1 then .ok []
      else if truthy (row.get keyName) = false then
        .error (noKeyMsg tabTitle (rowIndex + 1) keyName)
      else
        match loadRows tabTitle keyName header rest (rowIndex + 1) with
        | .ok rs => .ok (row :: rs)
        | .error e => .error e

/-- `loadTabTable(tab, keyName = 'id')` from SheetSDK.ts. -/
def loadTabTable (tab : SheetTab) (keyName : String) : Except String Table :=
  match tab.rowData with
  | [] => .ok ⟨[], []⟩
  | hd :: rest =>
      let header := takeHeader hd.values
      match loadRows tab.title keyName header rest 1 with
      | .ok rs => .ok ⟨header, rs⟩
      | .error e => .error e

/-- The record the parser would build for data row `j` (0-based position
among the data rows, i.e. `rowData` index `j + 1`). -/
def builtRow (header : List String) (drest : List TabRowData) (j : Nat) :
    RowRec :=
  buildRow header ((drest.getD j ⟨[]⟩).values) (j + 1)

/-- The C6 scenario grid: header `id,name`; data rows Alice, a blank row,
then Bob. -/
def tabC6 : SheetTab :=
  ⟨"t",
    [⟨[⟨"id"⟩, ⟨"name"⟩]⟩,
     ⟨[⟨"1"⟩, ⟨"Alice"⟩]⟩,
     ⟨[]⟩,
     ⟨[⟨"2"⟩, ⟨"Bob"⟩]⟩]⟩

/-- The parsed table expected for `tabC6`. -/
def tableC6 : Table :=
  ⟨["id", "name"], [⟨[("row", .vNum 2), ("id", .vStr "1"), ("name", .vStr "Alice")]⟩]⟩

/-- Empty store over header `id,name`, tab name `t`, key column `id`. -/
def ws0 : Store := ⟨"t", ["id", "name"], "id", [], []⟩

/-- The record `{row: 0, id: "x", name: "n"}` to be created. -/
def model0 : RowRec := ⟨[("row", .vNum 0), ("id", .vStr "x"), ("name", .vStr "n")]⟩

/-- A remote append oracle that succeeds and echoes the sent values back. -/
def echoCreate : CreateCall → Except String AssignSrc :=
  fun c => .ok (.arr c.values)

/-- The stored row at remote position 2. -/
def rowPos2 : RowRec := ⟨[("row", .vNum 2), ("id", .vStr "x"), ("name", .vStr "old")]⟩

/-- Store holding exactly one row, whose remote position is 2. -/
def ws1 : Store := ⟨"t", ["id", "name"], "id", [rowPos2], [("x", rowPos2)]⟩

/-- The update request `{row: 2, id: "x", name: "changed"}`. -/
def model2 : RowRec := ⟨[("row", .vNum 2), ("id", .vStr "x"), ("name", .vStr "changed")]⟩

/-- A remote update oracle that succeeds and echoes the sent values back. -/
def echoUpdate : UpdateCall → Except String AssignSrc :=
  fun c => .ok (.arr c.values)

/-- The update request `{row: -1, id: "x", name: "n"}` (a negative row). -/
def modelNeg : RowRec := ⟨[("row", .vNum (-1)), ("id", .vStr "x"), ("name", .vStr "n")]⟩

/-- A row whose `name` field holds the number `0` (a falsy value). -/
def rowZeroName : RowRec := ⟨[("row", .vNum 2), ("id", .vStr "z"), ("name", .vNum 0)]⟩

/-- Store containing `rowZeroName`, for exercising `find` with falsy values. -/
def wsZ : Store := ⟨"t", ["id", "name"], "id", [rowZeroName], [("z", rowZeroName)]⟩

/-- Records with a duplicated key `"a"` (used against the find claim). -/
def raDup : RowRec := ⟨[("row", .vNum 2), ("id", .vStr "a"), ("name", .vStr "n1")]⟩

/-- Second record with the same key `"a"` but a different `name`. -/
def rbDup : RowRec := ⟨[("row", .vNum 3), ("id", .vStr "a"), ("name", .vStr "n2")]⟩

/-- Store whose two rows share the key `"a"`; its index is the rebuilt one. -/
def wsDup : Store :=
  ⟨"t", ["id", "name"], "id", [raDup, rbDup], createIndex refHost "id" [raDup, rbDup]⟩

/-- Record with the distinct key `"b"`. -/
def rbUniq : RowRec := ⟨[("row", .vNum 3), ("id", .vStr "b"), ("name", .vStr "n2")]⟩

/-- Store with two rows carrying distinct keys `"a"` and `"b"`. -/
def wsU : Store :=
  ⟨"t", ["id", "name"], "id", [raDup, rbUniq], createIndex refHost "id" [raDup, rbUniq]⟩

/-- Claim C1: on an empty table, `create({row:0, id:"x", name:"n"})` invokes the
remote append at row position 0 with the header-ordered encoded values
`["x","n"]` and re-assigns the echoed response onto the record — but, because
the created record is never pushed onto `rows` (WhollySheet.ts:163 is commented
out), the rebuilt key index is still empty: it does NOT contain `"x"`, contrary
to the claim's final conjunct. -/
theorem c1_create_scenario :
    createS refHost ws0 model0 echoCreate
        = (ws0, [⟨"t", 0, ["x", "n"]⟩], .ok model0)
      ∧ (createS refHost ws0 model0 echoCreate).1.index.lookup "x" = none := by
  decide

/-- Claim C2: on a store holding exactly one row at remote position 2,
`update({row:2, id:"x", name:"changed"})` invokes the remote update with row 2
and the encoded values including `"changed"` — but then
`this.rows[model.row].assign(result)` reads `rows[2]` of a one-element array
(`undefined`) and raises a TypeError: the stored row entry is never
re-assigned and the index is never rebuilt. -/
theorem c2_update_scenario :
    updateS refHost ws1 model2 echoUpdate
      = (ws1, [⟨"t", .vNum 2, ["x", "changed"]⟩], .error typeErrMsg) := by
  decide

/-- Claim C6: parsing the grid whose data rows are `{id:"1",name:"Alice"}`, a
blank row, then `{id:"2",name:"Bob"}` yields exactly the Alice row, carrying
`row = 2` (data row at 1-based index 1 gets `row = i + 1`). -/
theorem c6_parse_scenario :
    loadTabTable tabC6 "id" = .ok tableC6
      ∧ tableC6.rows.map (fun r => r.get "row") = [.vNum 2] := by
  decide

/-- Claim C9: `find` returns `undefined` for every falsy lookup value, for any
store and any column choice. -/
theorem c9_find_falsy (h : JsHost) (ws : Store) (value : FieldVal)
    (col : Option String) (hv : truthy value = false) :
    findW h ws value col = none := by
  simp [findW, hv]

/-- Witness for C9: the store `wsZ` has a row whose `name` actually holds `0`,
yet `find(0, "name")` is "not found". -/
theorem c9_find_falsy_witness :
    findW refHost wsZ (.vNum 0) (some "name") = none :=
  c9_find_falsy refHost wsZ (.vNum 0) (some "name") (by decide)

/-- Claim C10: `typeCast` of a truthy raw value into a field slot whose current
value is `undefined` or `null` (none of the recognized types) returns the
record object's own string rendering `"[object Object]"`. -/
theorem c10_typecast_fallback (h : JsHost) (r : RowRec) (key : String)
    (value : String) (hval : value ≠ "")
    (hcur : r.get key = .vUndefined ∨ r.get key = .vNull) :
    typeCast h r key value = .vStr "[object Object]" := by
  rcases hcur with hc | hc <;> simp [typeCast, hval, hc]

/-- Witness for C10: casting `"abc"` into the unset field `name` of a fresh
record yields `"[object Object]"`. -/
theorem c10_typecast_fallback_witness :
    typeCast refHost ⟨[("row", .vNum 0)]⟩ "name" "abc" = .vStr "[object Object]" :=
  c10_typecast_fallback refHost ⟨[("row", .vNum 0)]⟩ "name" "abc" (by decide)
    (Or.inl (by decide))

/-- Does the current field value establish the same inferred type as `v`
(the dispatch classes of `typeCast`: string, number, boolean, date)? -/
def typeMatch : FieldVal → FieldVal → Bool
  | .vStr _, .vStr _ => true
  | .vNum _, .vNum _ => true
  | .vBool _, .vBool _ => true
  | .vDate _, .vDate _ => true
  | _, _ => false

/-- Record whose field `f` currently holds a string (establishing the
string inferred type). -/
def recStrPrior : RowRec := ⟨[("row", .vNum 0), ("f", .vStr "prior")]⟩

/-- Record whose field `d` currently holds a date. -/
def recDatePrior : RowRec := ⟨[("row", .vNum 0), ("d", .vDate 0)]⟩

/-- Record whose field `f` currently holds a number. -/
def recNumPrior : RowRec := ⟨[("row", .vNum 0), ("f", .vNum 1)]⟩

/-- Counterexample to claim C3: the round trip `decode(encode(v)) = v` fails
for the supported string value `v = ""` (its encoding is the falsy `""`, which
`typeCast` maps to `undefined`), and for the supported date value
`v = noDate` (it encodes to the NIL sentinel, which reparses as a different
date). -/
theorem c3_roundtrip_cex :
    typeCast refHost recStrPrior "f" (stringer refHost (.vStr "")) = .vUndefined
      ∧ (FieldVal.vUndefined ≠ .vStr "")
      ∧ typeCast refHost recDatePrior "d" (stringer refHost (.vDate noDateMs))
          ≠ .vDate noDateMs := by
  decide

/-- Claim C3 (amended): `decode(encode(v)) = v` for every supported value `v`
whose encoding is truthy — excluding the empty string and the unset-date
sentinel — given the receiving field's current value has `v`'s type and the
host print/parse primitives round-trip `v`; dates are compared by
timestamp. -/
theorem c3_roundtrip_amended (h : JsHost) (r : RowRec) (key : String)
    (v : FieldVal) (hmatch : typeMatch (r.get key) v = true)
    (hstr : ∀ s, v = .vStr s → s ≠ "")
    (hnum : ∀ q, v = .vNum q → h.numToString q ≠ ""
      ∧ (isIntStr (h.numToString q) = true → h.parseInt10 (h.numToString q) = q)
      ∧ (isIntStr (h.numToString q) = false → h.parseFloat (h.numToString q) = q))
    (hdate : ∀ t, v = .vDate t → t ≠ noDateMs ∧ h.dateToISO t ≠ ""
      ∧ h.parseDate (h.dateToISO t) = t) :
    typeCast h r key (stringer h v) = v := by
  cases v with
  | vUndefined => cases hcur : r.get key <;> rw [hcur] at hmatch <;> simp [typeMatch] at hmatch
  | vNull => cases hcur : r.get key <;> rw [hcur] at hmatch <;> simp [typeMatch] at hmatch
  | vStr s =>
      have hs := hstr s rfl
      cases hcur : r.get key <;> rw [hcur] at hmatch <;> simp [typeMatch] at hmatch
      simp [stringer, typeCast, hs, hcur]
  | vNum q =>
      obtain ⟨hne, hint, hflt⟩ := hnum q rfl
      cases hcur : r.get key <;> rw [hcur] at hmatch <;> simp [typeMatch] at hmatch
      simp only [stringer, typeCast, if_neg hne, hcur]
      cases hii : isIntStr (h.numToString q) with
      | true => simp [hii, hint hii]
      | false => simp [hii, hflt hii]
  | vBool b =>
      cases hcur : r.get key <;> rw [hcur] at hmatch <;> simp [typeMatch] at hmatch
      cases b <;> simp [stringer, typeCast, hcur] <;> decide
  | vDate t =>
      obtain ⟨hnd, hne, hrt⟩ := hdate t rfl
      cases hcur : r.get key <;> rw [hcur] at hmatch <;> simp [typeMatch] at hmatch
      simp [stringer, typeCast, hnd, hne, hcur, hrt]

/-- Witness for the amended C3: the integer 5 round-trips through the codec
under the concrete host. -/
theorem c3_roundtrip_witness :
    typeCast refHost recNumPrior "f" (stringer refHost (.vNum 5)) = .vNum 5 :=
  c3_roundtrip_amended refHost recNumPrior "f" (.vNum 5) (by decide)
    (fun s hs => by cases hs)
    (fun q hq => by
      cases hq
      exact ⟨by decide, fun hi => by decide, fun hi => absurd hi (by decide)⟩)
    (fun t ht => by cases ht)

/-- Claim C5: an errored `create` or `update` — precondition failure, remote
failure, or the TypeError on the row-entry lookup — leaves the in-memory
store (rows and index) exactly as it was; the index is rebuilt only on the
success path. -/
theorem c5_error_leaves_store (h : JsHost) (ws : Store) (model : RowRec)
    (rc : CreateCall → Except String AssignSrc)
    (ru : UpdateCall → Except String AssignSrc) :
    (∀ e, (createS h ws model rc).2.2 = .error e → (createS h ws model rc).1 = ws)
    ∧ (∀ e, (updateS h ws model ru).2.2 = .error e → (updateS h ws model ru).1 = ws) := by
  constructor
  · intro e he
    by_cases h1 : truthy (model.get ws.keyColumn) = false
    · simp [createS, h1]
    · by_cases h2 : model.get "row" = .vNum 0
      · cases hrc : rc ⟨ws.name, ws.rows.length, wsValues h ws model⟩ with
        | error e2 => simp [createS, h1, h2, hrc]
        | ok src => simp [createS, h1, h2, hrc] at he
      · simp [createS, h1, h2]
  · intro e he
    by_cases h1 : truthy (model.get ws.keyColumn) = false
    · simp [updateS, h1]
    · by_cases h2 : truthy (model.get "row") = false
      · simp [updateS, h1, h2]
      · cases hru : ru ⟨ws.name, model.get "row", wsValues h ws model⟩ with
        | error e2 => simp [updateS, h1, h2, hru]
        | ok src =>
            cases hji : jsIndexNat ws.rows.length (model.get "row") with
            | none => simp [updateS, h1, h2, hru, hji]
            | some n => simp [updateS, h1, h2, hru, hji] at he

/-- Witness for C5: the failing create of `modelNeg` (row −1) leaves the empty
store untouched, and the crashing update of `model2` against `ws1` leaves that
store untouched. -/
theorem c5_error_leaves_store_witness :
    (createS refHost ws0 modelNeg echoCreate).1 = ws0
      ∧ (updateS refHost ws1 model2 echoUpdate).1 = ws1 :=
  ⟨(c5_error_leaves_store refHost ws0 modelNeg echoCreate echoUpdate).1
      (createRowMsg refHost modelNeg) (by decide),
   (c5_error_leaves_store refHost ws1 model2 echoCreate echoUpdate).2
      typeErrMsg (by decide)⟩

/-- Counterexample to claim C8: for the record `{row:-1, id:"x", name:"n"}`
(key set, row ≤ 0) the `update` precondition does not raise — the remote
update is invoked (the call trace is non-empty) and the raised error is not
the "must be > 0 to update" precondition error. -/
theorem c8_row_guard_cex :
    (updateS refHost ws1 modelNeg echoUpdate).2.1 ≠ []
      ∧ (updateS refHost ws1 modelNeg echoUpdate).2.2
          ≠ .error (updateRowMsg refHost modelNeg) := by
  decide

/-- Claim C8 (amended): with the key field set, `create` raises its
precondition error exactly when `record.row !== 0`, and `update` raises its
precondition error exactly when `record.row` is falsy (`== 0`) — a negative
row passes `update`'s check; in the passing cases the remote call is
issued. -/
theorem c8_row_guard_amended (h : JsHost) (ws : Store) (model : RowRec)
    (rc : CreateCall → Except String AssignSrc)
    (ru : UpdateCall → Except String AssignSrc)
    (hkey : truthy (model.get ws.keyColumn) = true) :
    (model.get "row" ≠ .vNum 0 →
        createS h ws model rc = (ws, [], .error (createRowMsg h model)))
    ∧ (model.get "row" = .vNum 0 →
        (createS h ws model rc).2.1
          = [⟨ws.name, ws.rows.length, wsValues h ws model⟩])
    ∧ (truthy (model.get "row") = false →
        updateS h ws model ru = (ws, [], .error (updateRowMsg h model)))
    ∧ (truthy (model.get "row") = true →
        (updateS h ws model ru).2.1
          = [⟨ws.name, model.get "row", wsValues h ws model⟩]) := by
  refine ⟨fun hrow => ?_, fun hrow => ?_, fun hrow => ?_, fun hrow => ?_⟩
  · simp [createS, hkey, hrow]
  · cases hrc : rc ⟨ws.name, ws.rows.length, wsValues h ws model⟩ <;>
      simp [createS, hkey, hrow, hrc]
  · simp [updateS, hkey, hrow]
  · cases hru : ru ⟨ws.name, model.get "row", wsValues h ws model⟩ with
    | error e => simp [updateS, hkey, hrow, hru]
    | ok src =>
        cases hji : jsIndexNat ws.rows.length (model.get "row") <;>
          simp [updateS, hkey, hrow, hru, hji]

/-- Witness for the amended C8: `create` of `model2` (row 2 ≠ 0) raises the
row precondition error; `update` of `model0` (row 0) raises its precondition
error; `update` of `model2` issues the remote call. -/
theorem c8_row_guard_witness :
    createS refHost ws1 model2 echoCreate
        = (ws1, [], .error (createRowMsg refHost model2))
      ∧ updateS refHost ws1 model0 echoUpdate
          = (ws1, [], .error (updateRowMsg refHost model0))
      ∧ (updateS refHost ws1 model2 echoUpdate).2.1
          = [⟨"t", .vNum 2, ["x", "changed"]⟩] :=
  ⟨(c8_row_guard_amended refHost ws1 model2 echoCreate echoUpdate (by decide)).1
      (by decide),
   ((c8_row_guard_amended refHost ws1 model0 echoCreate echoUpdate (by decide)).2.2.1
      (by decide)),
   ((c8_row_guard_amended refHost ws1 model2 echoCreate echoUpdate (by decide)).2.2.2
      (by decide))⟩

/-- The index key of a record: the JS string coercion of its key field. -/
def keyStr (h : JsHost) (kc : String) (r : RowRec) : String :=
  jsToString h (r.get kc)

/-- Is the value a string? -/
def isStrVal : FieldVal → Bool
  | .vStr _ => true
  | _ => false

theorem toAT_id (o : Option RowRec) : toAT o = o := by
  cases o <;> rfl

theorem objSet_append (m : List (String × RowRec)) (k : String) (v : RowRec)
    (hm : ∀ p ∈ m, p.1 ≠ k) : objSet m k v = m ++ [(k, v)] := by
  have hany : m.any (fun p => p.1 = k) = false := by
    simp only [List.any_eq_false, decide_eq_true_eq]
    exact hm
  simp [objSet, hany]

theorem foldl_objSet (h : JsHost) (kc : String) (rows : List RowRec) :
    ∀ acc : List (String × RowRec),
      (∀ p ∈ acc, ∀ r ∈ rows, p.1 ≠ keyStr h kc r) →
      (rows.map (keyStr h kc)).Nodup →
      rows.foldl (fun m r => objSet m (jsToString h (r.get kc)) r) acc
        = acc ++ rows.map (fun r => (keyStr h kc r, r)) := by
  induction rows with
  | nil => intro acc _ _; simp
  | cons r rs ih =>
      intro acc hdisj hnd
      have hk : ∀ p ∈ acc, p.1 ≠ keyStr h kc r :=
        fun p hp => hdisj p hp r (by simp)
      have hstep : objSet acc (jsToString h (r.get kc)) r
          = acc ++ [(keyStr h kc r, r)] :=
        objSet_append acc (keyStr h kc r) r hk
      have hnotmem : keyStr h kc r ∉ rs.map (keyStr h kc) := by
        simp only [List.map_cons, List.nodup_cons] at hnd
        exact hnd.1
      have hnd' : (rs.map (keyStr h kc)).Nodup := by
        simp only [List.map_cons, List.nodup_cons] at hnd
        exact hnd.2
      have hdisj' : ∀ p ∈ acc ++ [(keyStr h kc r, r)], ∀ r2 ∈ rs,
          p.1 ≠ keyStr h kc r2 := by
        intro p hp r2 hr2
        rcases List.mem_append.mp hp with hp | hp
        · exact hdisj p hp r2 (by simp [hr2])
        · have hpe : p = (keyStr h kc r, r) := by simpa using hp
          subst hpe
          intro hcontra
          apply hnotmem
          have : keyStr h kc r2 ∈ rs.map (keyStr h kc) :=
            List.mem_map_of_mem (keyStr h kc) hr2
          simpa [← hcontra] using this
      calc (r :: rs).foldl (fun m r => objSet m (jsToString h (r.get kc)) r) acc
          = rs.foldl (fun m r => objSet m (jsToString h (r.get kc)) r)
              (acc ++ [(keyStr h kc r, r)]) := by
            simp only [List.foldl_cons, hstep]
        _ = acc ++ [(keyStr h kc r, r)] ++ rs.map (fun r => (keyStr h kc r, r)) :=
            ih (acc ++ [(keyStr h kc r, r)]) hdisj' hnd'
        _ = acc ++ (r :: rs).map (fun r => (keyStr h kc r, r)) := by simp

theorem createIndex_nodup (h : JsHost) (kc : String) (rows : List RowRec)
    (hnd : (rows.map (keyStr h kc)).Nodup) :
    createIndex h kc rows = rows.map (fun r => (keyStr h kc r, r)) := by
  have := foldl_objSet h kc rows [] (by simp) hnd
  simpa [createIndex] using this

theorem lookup_map_find (h : JsHost) (kc : String) (rows : List RowRec)
    (v : String) :
    (rows.map (fun r => (keyStr h kc r, r))).lookup v
      = rows.find? (fun r => keyStr h kc r = v) := by
  induction rows with
  | nil => rfl
  | cons r rs ih =>
      by_cases hv : keyStr h kc r = v
      · subst hv
        simp [List.lookup, List.find?]
      · have h1 : (v == keyStr h kc r) = false :=
          beq_eq_false_iff_ne.mpr (Ne.symm hv)
        have h2 : (decide (keyStr h kc r = v)) = false := decide_eq_false hv
        simp [List.lookup, List.find?, h1, h2, ih]

theorem find?_pred_congr (l : List RowRec) (p q : RowRec → Bool)
    (hpq : ∀ x ∈ l, p x = q x) : l.find? p = l.find? q := by
  induction l with
  | nil => rfl
  | cons a l ih =>
      have ha := hpq a (by simp)
      cases hq : q a with
      | true => simp [List.find?, ha, hq]
      | false =>
          simp only [List.find?, ha, hq]
          exact ih (fun x hx => hpq x (List.mem_cons_of_mem a hx))

/-- Counterexample to claim C4: in a store whose two rows share the key
`"a"`, the index resolves `find("a", keyColumn)` to the LAST row with that
key (index building overwrites), while a linear scan over the rows returns
the FIRST one — the results differ. -/
theorem c4_find_cex :
    findW refHost wsDup (.vStr "a") (some "id") = some rbDup
      ∧ wsDup.rows.find? (fun r => jsStrictEq (r.get "id") (.vStr "a"))
          = some raDup
      ∧ rbDup ≠ raDup := by
  decide

/-- Claim C4 (amended): when the store's index is the rebuilt one, the rows'
key fields are strings that are pairwise distinct, and the lookup value is a
truthy string, `find(value, keyColumn)` via the index equals the linear scan
comparing the key column; and for a non-key, non-empty column name, `find`
is exactly the first-match linear scan over that column (for any truthy
lookup value). -/
theorem c4_find_amended :
    (∀ (h : JsHost) (ws : Store) (v : String),
        ws.index = createIndex h ws.keyColumn ws.rows →
        (ws.rows.map (keyStr h ws.keyColumn)).Nodup →
        (∀ r ∈ ws.rows, isStrVal (r.get ws.keyColumn) = true) →
        v ≠ "" →
        findW h ws (.vStr v) (some ws.keyColumn)
          = ws.rows.find? (fun r => jsStrictEq (r.get ws.keyColumn) (.vStr v)))
    ∧ (∀ (h : JsHost) (ws : Store) (value : FieldVal) (c : String),
        truthy value = true → c ≠ ws.keyColumn → c ≠ "" →
        findW h ws value (some c)
          = ws.rows.find? (fun r => jsStrictEq (r.get c) value)) := by
  constructor
  · intro h ws v hidx hnd hkeys hv
    have htr : truthy (.vStr v) = true := by simp [truthy, hv]
    have h0 : findW h ws (.vStr v) (some ws.keyColumn)
        = toAT (ws.index.lookup (jsToString h (.vStr v))) := by
      simp [findW, htr]
    rw [h0, toAT_id]
    have hjs : jsToString h (.vStr v) = v := rfl
    rw [hjs, hidx, createIndex_nodup h ws.keyColumn ws.rows hnd, lookup_map_find]
    apply find?_pred_congr
    intro r hr
    have hstr := hkeys r hr
    cases hc : r.get ws.keyColumn <;> rw [hc] at hstr <;> simp [isStrVal] at hstr
    simp [keyStr, jsToString, jsStrictEq, hc]
  · intro h ws value c hval hc hc2
    simp [findW, hval, hc, hc2, toAT_id]

/-- Witness for the amended C4: in the distinct-key store `wsU`, the indexed
key lookup equals the linear scan, and a `name` lookup is the first-match
scan. -/
theorem c4_find_witness :
    findW refHost wsU (.vStr "a") (some "id")
        = wsU.rows.find? (fun r => jsStrictEq (r.get "id") (.vStr "a"))
      ∧ findW refHost wsU (.vStr "n2") (some "name")
        = wsU.rows.find? (fun r => jsStrictEq (r.get "name") (.vStr "n2")) :=
  ⟨c4_find_amended.1 refHost wsU "a" (by decide) (by decide) (by decide)
      (by decide),
   c4_find_amended.2 refHost wsU (.vStr "n2") "name" (by decide) (by decide)
      (by decide)⟩

theorem loadRows_error (tabTitle keyName : String) (header : List String) :
    ∀ (ds : List TabRowData) (i k : Nat), k < ds.length →
      (∀ j, j < k →
        (buildRow header ((ds.getD j ⟨[]⟩).values) (i + j)).fields.length ≠ 1
          ∧ truthy ((buildRow header ((ds.getD j ⟨[]⟩).values) (i + j)).get keyName)
              = true) →
      (buildRow header ((ds.getD k ⟨[]⟩).values) (i + k)).fields.length ≠ 1 →
      truthy ((buildRow header ((ds.getD k ⟨[]⟩).values) (i + k)).get keyName)
          = false →
      loadRows tabTitle keyName header ds i
        = .error (noKeyMsg tabTitle (i + k + 1) keyName) := by
  intro ds
  induction ds with
  | nil => intro i k hk; exact absurd hk (by simp)
  | cons d rest ih =>
      intro i k hk hgood hbad1 hbad2
      cases k with
      | zero =>
          simp only [List.getD_cons_zero, Nat.add_zero] at hbad1 hbad2
          simp [loadRows, hbad1, hbad2]
      | succ n =>
          have hg0 := hgood 0 (Nat.succ_pos n)
          simp only [List.getD_cons_zero, Nat.add_zero] at hg0
          have hgood' : ∀ j, j < n →
              (buildRow header ((rest.getD j ⟨[]⟩).values) ((i + 1) + j)).fields.length
                  ≠ 1
                ∧ truthy ((buildRow header ((rest.getD j ⟨[]⟩).values)
                    ((i + 1) + j)).get keyName) = true := by
            intro j hj
            have hstep := hgood (j + 1) (by omega)
            have harith : i + (j + 1) = (i + 1) + j := by omega
            simpa [List.getD_cons_succ, harith] using hstep
          have hbad1' : (buildRow header ((rest.getD n ⟨[]⟩).values)
              ((i + 1) + n)).fields.length ≠ 1 := by
            have harith : i + (n + 1) = (i + 1) + n := by omega
            simpa [List.getD_cons_succ, harith] using hbad1
          have hbad2' : truthy ((buildRow header ((rest.getD n ⟨[]⟩).values)
              ((i + 1) + n)).get keyName) = false := by
            have harith : i + (n + 1) = (i + 1) + n := by omega
            simpa [List.getD_cons_succ, harith] using hbad2
          have hklt : n < rest.length := by
            simp only [List.length_cons] at hk
            omega
          have hrec := ih (i + 1) n hklt hgood' hbad1' hbad2'
          have harith2 : (i + 1) + n + 1 = i + (n + 1) + 1 := by omega
          rw [harith2] at hrec
          simp [loadRows, hg0.1, hg0.2, hrec]

/-- Counterexample to claim C7: in a grid whose first data row is fully
blank and whose second data row has a populated `name` but no `id`, parsing
stops at the blank row and succeeds — no structural error is raised even
though an offending (non-blank, keyless) data row exists. -/
theorem c7_nokey_cex :
    (buildRow ["id", "name"] [⟨""⟩, ⟨"B"⟩] 2).fields.length ≠ 1
      ∧ truthy ((buildRow ["id", "name"] [⟨""⟩, ⟨"B"⟩] 2).get "id") = false
      ∧ loadTabTable ⟨"t", [⟨[⟨"id"⟩, ⟨"name"⟩]⟩, ⟨[]⟩, ⟨[⟨""⟩, ⟨"B"⟩]⟩]⟩ "id"
          = .ok ⟨["id", "name"], []⟩ := by
  decide

/-- Claim C7 (amended): for the first data row the parser reaches — every
earlier data row being non-blank with a truthy key — that is non-blank but
lacks a key value, parsing raises the structural error naming the tab title
and the row's 1-based remote row number (data row `k` is remote row
`k + 2`). -/
theorem c7_nokey_amended (tab : SheetTab) (keyName : String)
    (hd : TabRowData) (drest : List TabRowData)
    (htab : tab.rowData = hd :: drest) (k : Nat) (hk : k < drest.length)
    (hgood : ∀ j, j < k →
        (builtRow (takeHeader hd.values) drest j).fields.length ≠ 1
          ∧ truthy ((builtRow (takeHeader hd.values) drest j).get keyName) = true)
    (hbad1 : (builtRow (takeHeader hd.values) drest k).fields.length ≠ 1)
    (hbad2 : truthy ((builtRow (takeHeader hd.values) drest k).get keyName)
        = false) :
    loadTabTable tab keyName = .error (noKeyMsg tab.title (k + 2) keyName) := by
  have hg : ∀ j, j < k →
      (buildRow (takeHeader hd.values) ((drest.getD j ⟨[]⟩).values)
          (1 + j)).fields.length ≠ 1
        ∧ truthy ((buildRow (takeHeader hd.values) ((drest.getD j ⟨[]⟩).values)
            (1 + j)).get keyName) = true := by
    intro j hj
    simpa [builtRow, Nat.add_comm 1 j] using hgood j hj
  have hb1 : (buildRow (takeHeader hd.values) ((drest.getD k ⟨[]⟩).values)
      (1 + k)).fields.length ≠ 1 := by
    simpa [builtRow, Nat.add_comm 1 k] using hbad1
  have hb2 : truthy ((buildRow (takeHeader hd.values) ((drest.getD k ⟨[]⟩).values)
      (1 + k)).get keyName) = false := by
    simpa [builtRow, Nat.add_comm 1 k] using hbad2
  have hlr := loadRows_error tab.title keyName (takeHeader hd.values) drest 1 k
    hk hg hb1 hb2
  have harith : 1 + k + 1 = k + 2 := by omega
  rw [harith] at hlr
  unfold loadTabTable
  rw [htab]
  simp [hlr]

/-- Witness for the amended C7: a grid with one good data row followed by a
keyless one raises the error naming tab `t` and remote row 3. -/
theorem c7_nokey_witness :
    loadTabTable ⟨"t", [⟨[⟨"id"⟩, ⟨"name"⟩]⟩, ⟨[⟨"1"⟩, ⟨"A"⟩]⟩, ⟨[⟨""⟩, ⟨"B"⟩]⟩]⟩ "id"
      = .error (noKeyMsg "t" 3 "id") :=
  c7_nokey_amended ⟨"t", [⟨[⟨"id"⟩, ⟨"name"⟩]⟩, ⟨[⟨"1"⟩, ⟨"A"⟩]⟩, ⟨[⟨""⟩, ⟨"B"⟩]⟩]⟩
    "id" ⟨[⟨"id"⟩, ⟨"name"⟩]⟩ [⟨[⟨"1"⟩, ⟨"A"⟩]⟩, ⟨[⟨""⟩, ⟨"B"⟩]⟩] rfl 1
    (by decide) (by decide) (by decide) (by decide)

end WS

